import Mathlib

/-!
Shallow embedding of `app/services/mcp/context_manager.py` (the conversational
context retention engine) and proofs about it.

Modelling conventions:
* `datetime` values are integers (seconds); `timedelta(hours=h)` is `3600*h`
  and `timedelta(minutes=m)` is `60*m`.  Every method that reads
  `datetime.utcnow()` takes an explicit `now : ℤ` parameter.
* `float` importance scores are rationals (`ℚ`); only comparisons are
  performed on them, so this is faithful.
* The opaque `content` payload is a `String` (`str(content)` is the identity),
  `metadata` is an association list.
* Python's stable `list.sort(key=..., reverse=True)` is modelled by
  `List.insertionSort` with the relation "comes no later than": a stable sort
  is determined by that relation, so any stable sorting algorithm is a
  faithful model of Timsort.
* Python truthiness tests (`if limit:`, `if context_type:`,
  `if expires_in_hours:`, `if not self._context_items:`) are modelled
  exactly: `None`, `0` and `""` are falsy.
* Python slices with possibly negative bounds (`items[:limit]`,
  `summary[:max_length - 3]`, `items[-5:]`) are modelled by `pyListTake`,
  `pyStrTake`, `pyListFrom`.
-/

/-- Python list slice `l[:k]`, for any integer `k` (negative counts from the
end, clamped at 0). -/
def pyListTake {α : Type} (l : List α) (k : ℤ) : List α :=
  if k < 0 then l.take ((l.length : ℤ) + k).toNat else l.take k.toNat

/-- Python list slice `l[k:]`, for any integer `k` (negative counts from the
end, clamped at 0). -/
def pyListFrom {α : Type} (l : List α) (k : ℤ) : List α :=
  if k < 0 then l.drop ((l.length : ℤ) + k).toNat else l.drop k.toNat

/-- Python string slice `s[:k]`, for any integer `k`. -/
def pyStrTake (s : String) (k : ℤ) : String :=
  String.mk (pyListTake s.data k)

/-- Python `dict.get(key, default)` on an association list. -/
def dictGet (d : List (String × String)) (key dflt : String) : String :=
  match d.find? (fun p => p.1 == key) with
  | some p => p.2
  | none => dflt

/-- Helper for `pyTitle`: the boolean records whether the previous character
was alphabetic (so the next letter is lowercased rather than capitalised). -/
def pyTitleGo : Bool → List Char → List Char
  | _, [] => []
  | prevAlpha, c :: rest =>
    (if c.isAlpha then (if prevAlpha then c.toLower else c.toUpper) else c)
      :: pyTitleGo c.isAlpha rest

/-- Python `str.title()` (ASCII behaviour): capitalise each letter that
follows a non-letter, lowercase the other letters. -/
def pyTitle (s : String) : String :=
  String.mk (pyTitleGo false s.data)

/-- First-occurrence deduplication with an accumulator of already-seen keys;
models the insertion order of the keys of a Python `dict` built by repeated
assignment. -/
def firstDedupAux : List String → List String → List String
  | _, [] => []
  | seen, a :: rest =>
    if a ∈ seen then firstDedupAux seen rest
    else a :: firstDedupAux (a :: seen) rest

/-- First-occurrence deduplication of a list of strings. -/
def firstDedup (l : List String) : List String :=
  firstDedupAux [] l

/-- `ContextItem` from `context_manager.py`: a single context item. -/
structure ContextItem where
  id : String
  type : String
  content : String
  timestamp : ℤ
  importance : ℚ := 1
  expires_at : Option ℤ := none
  metadata : List (String × String) := []
  deriving DecidableEq, Repr

/-- `ContextItem.is_expired`: `expires_at is not None and utcnow() > expires_at`. -/
def ContextItem.is_expired (item : ContextItem) (now : ℤ) : Bool :=
  match item.expires_at with
  | some e => e < now
  | none => false

/-- `ContextWindow` from `context_manager.py`: retention policy. -/
structure ContextWindow where
  max_items : ℕ := 100
  max_age_hours : ℤ := 24
  importance_threshold : ℚ := mkRat 1 10
  deriving DecidableEq, Repr

/-- `ContextWindow.should_retain`: an item is retained iff it is not expired,
its importance reaches the threshold, and its age is at most `max_age_hours`. -/
def ContextWindow.should_retain (w : ContextWindow) (item : ContextItem) (now : ℤ) : Bool :=
  if item.is_expired now then false
  else if item.importance < w.importance_threshold then false
  else if now - item.timestamp > 3600 * w.max_age_hours then false
  else true

/-- The sort key `lambda x: (x.importance, x.timestamp)` used by
`get_context` and `_cleanup`. -/
def sortKey (item : ContextItem) : ℚ × ℤ :=
  (item.importance, item.timestamp)

/-- Lexicographic `≤` on `(importance, timestamp)` pairs, the order Python
compares tuples with. -/
def keyLe (p q : ℚ × ℤ) : Prop :=
  p.1 < q.1 ∨ (p.1 = q.1 ∧ p.2 ≤ q.2)

instance : DecidableRel keyLe := fun p q =>
  inferInstanceAs (Decidable (p.1 < q.1 ∨ (p.1 = q.1 ∧ p.2 ≤ q.2)))

/-- `a` may precede `b` in a `sort(key=sortKey, reverse=True)`: its key is at
least `b`'s.  A stable sort with this relation is exactly Python's
reverse-sorted order with insertion order breaking full ties. -/
def descBefore (a b : ContextItem) : Prop :=
  keyLe (sortKey b) (sortKey a)

instance : DecidableRel descBefore := fun a b =>
  inferInstanceAs (Decidable (keyLe (sortKey b) (sortKey a)))

/-- `items.sort(key=lambda x: (x.importance, x.timestamp), reverse=True)`,
as a stable sort. -/
def sortDesc (l : List ContextItem) : List ContextItem :=
  l.insertionSort descBefore

/-- `a` may precede `b` in `sorted(key=lambda x: x.timestamp, reverse=True)`. -/
def recentBefore (a b : ContextItem) : Prop :=
  b.timestamp ≤ a.timestamp

instance : DecidableRel recentBefore := fun a b =>
  inferInstanceAs (Decidable (b.timestamp ≤ a.timestamp))

/-- The mutable state of a `ContextManager`. -/
structure ContextManager where
  session_id : String
  context_window : ContextWindow := {}
  context_items : List ContextItem := []
  summary : Option String := none
  last_cleanup : ℤ := 0
  deriving DecidableEq, Repr

/-- The body of `ContextManager._cleanup` acting on the item list: filter by
`should_retain`, then if still above `max_items` sort descending by
(importance, timestamp) and keep the first `max_items`. -/
def cleanupItems (w : ContextWindow) (items : List ContextItem) (now : ℤ) : List ContextItem :=
  let retained := items.filter (fun item => w.should_retain item now)
  if retained.length > w.max_items then (sortDesc retained).take w.max_items
  else retained

/-- `ContextManager._cleanup`: replaces `_context_items`, touching no other
field (in particular it does not update `_last_cleanup`). -/
def cleanup (m : ContextManager) (now : ℤ) : ContextManager :=
  { m with context_items := cleanupItems m.context_window m.context_items now }

/-- `ContextManager._maybe_cleanup`: runs `_cleanup` and updates
`_last_cleanup` only if at least 10 minutes (600 s) have passed. -/
def maybe_cleanup (m : ContextManager) (now : ℤ) : ContextManager :=
  if now - m.last_cleanup < 600 then m
  else { cleanup m now with last_cleanup := now }

/-- The `ContextItem` constructed inside `ContextManager.add_context`
(`item_id` stands for the generated `uuid4`).  Note `if expires_in_hours:`
is Python truthiness: `None` and `0` both mean "no expiry". -/
def mkAddItem (now : ℤ) (item_id content context_type : String) (importance : ℚ)
    (expires_in_hours : Option ℤ) (metadata : Option (List (String × String))) : ContextItem :=
  { id := item_id
    type := context_type
    content := content
    timestamp := now
    importance := importance
    expires_at :=
      match expires_in_hours with
      | some h => if h ≠ 0 then some (now + 3600 * h) else none
      | none => none
    metadata := metadata.getD [] }

/-- `ContextManager.add_context`: append the new item, then `_maybe_cleanup`;
returns the new state and the item id. -/
def add_context (m : ContextManager) (now : ℤ) (item_id content context_type : String)
    (importance : ℚ) (expires_in_hours : Option ℤ)
    (metadata : Option (List (String × String))) : ContextManager × String :=
  let item := mkAddItem now item_id content context_type importance expires_in_hours metadata
  let m1 := { m with context_items := m.context_items ++ [item] }
  (maybe_cleanup m1 now, item_id)

/-- The type filter of `get_context`: `if context_type and item.type !=
context_type: continue` — `None` and `""` are falsy, so they disable the
filter. -/
def typeFilterGet (context_type : Option String) (item : ContextItem) : Bool :=
  match context_type with
  | none => true
  | some t => if t = "" then true else item.type == t

/-- The per-item predicate of `get_context`'s loop (mirrors the chain of
`continue`s). -/
def getPred (now : ℤ) (context_type : Option String) (min_importance : ℚ)
    (item : ContextItem) : Bool :=
  if item.is_expired now then false
  else if !(typeFilterGet context_type item) then false
  else if item.importance < min_importance then false
  else true

/-- `ContextManager.get_context`: filter, sort descending by
(importance, timestamp), then `if limit: items = items[:limit]`
(Python truthiness: `limit=None` and `limit=0` skip the slice). -/
def get_context (m : ContextManager) (now : ℤ) (context_type : Option String)
    (min_importance : ℚ) (limit : Option ℤ) : List ContextItem :=
  let items := m.context_items.filter (getPred now context_type min_importance)
  let sorted := sortDesc items
  match limit with
  | some k => if k ≠ 0 then pyListTake sorted k else sorted
  | none => sorted

/-- `ContextManager.get_recent_context`: keep items whose timestamp is at
least `now - hours`, filter by type (here Python tests `context_type is
None`, not truthiness), and sort by timestamp descending. -/
def get_recent_context (m : ContextManager) (now : ℤ) (hours : ℤ)
    (context_type : Option String) : List ContextItem :=
  (m.context_items.filter (fun item =>
    decide (now - 3600 * hours ≤ item.timestamp) &&
      (match context_type with
       | none => true
       | some t => item.type == t))).insertionSort recentBefore

/-- Replace the first item whose id matches, setting its importance to the
given value unchanged; `none` when no item matches. -/
def updateFirst (items : List ContextItem) (item_id : String) (importance : ℚ) :
    Option (List ContextItem) :=
  match items with
  | [] => none
  | item :: rest =>
    if item.id = item_id then some ({ item with importance := importance } :: rest)
    else (updateFirst rest item_id importance).map (item :: ·)

/-- `ContextManager.update_context_importance`: linear scan; on a hit store
the given value and return `True`, otherwise return `False` unchanged. -/
def update_context_importance (m : ContextManager) (item_id : String)
    (importance : ℚ) : ContextManager × Bool :=
  match updateFirst m.context_items item_id importance with
  | some items => ({ m with context_items := items }, true)
  | none => (m, false)

/-- Remove the first item whose id matches; `none` when no item matches. -/
def removeFirst (items : List ContextItem) (item_id : String) :
    Option (List ContextItem) :=
  match items with
  | [] => none
  | item :: rest =>
    if item.id = item_id then some rest
    else (removeFirst rest item_id).map (item :: ·)

/-- `ContextManager.remove_context`: delete the first matching item and
return `True`, otherwise return `False` unchanged. -/
def remove_context (m : ContextManager) (item_id : String) : ContextManager × Bool :=
  match removeFirst m.context_items item_id with
  | some items => ({ m with context_items := items }, true)
  | none => (m, false)

/-- The dictionary produced by `ContextManager.export_context`
(`to_dict`/`from_dict` round through ISO timestamps losslessly, so the
snapshot carries the fields verbatim). -/
structure ContextSnapshot where
  session_id : String
  context_window : ContextWindow
  context_items : List ContextItem
  summary : Option String
  last_cleanup : ℤ
  deriving DecidableEq, Repr

/-- `ContextManager.export_context`: a faithful point-in-time dump; no
cleanup, no filtering. -/
def export_context (m : ContextManager) : ContextSnapshot :=
  { session_id := m.session_id
    context_window := m.context_window
    context_items := m.context_items
    summary := m.summary
    last_cleanup := m.last_cleanup }

/-- `ContextManager.import_context`: replace session id, window, items,
summary and `_last_cleanup` from the snapshot, then run `_cleanup()`
(which does not touch `_last_cleanup`). -/
def import_context (m : ContextManager) (data : ContextSnapshot) (now : ℤ) : ContextManager :=
  cleanup
    { m with
      session_id := data.session_id
      context_window := data.context_window
      context_items := data.context_items
      summary := data.summary
      last_cleanup := data.last_cleanup }
    now

/-- One clause of `get_context_summary` for a given type group (the body of
the `for context_type, items in by_type.items()` loop); `none` when the
branch appends nothing. -/
def renderClause (important : List ContextItem) (ty : String) : Option String :=
  let items := important.filter (fun item => item.type == ty)
  if ty = "message" then
    let recent_messages := (pyListFrom items (-5)).map (fun item => item.content)
    if recent_messages = [] then none
    else some ("Recent conversation: " ++ String.intercalate " | " recent_messages)
  else if ty = "integration" then
    let integrations := items.map (fun item => dictGet item.metadata "name" "Unknown")
    if integrations = [] then none
    else some ("Working on integrations: " ++ String.intercalate ", " integrations)
  else if ty = "entity" then
    let entities := items.map (fun item => dictGet item.metadata "name" "Unknown")
    if entities = [] then none
    else some ("Referenced entities: " ++ String.intercalate ", " entities)
  else
    some (pyTitle ty ++ ": " ++ toString items.length ++ " items")

/-- The items `get_context_summary` summarises: importance ≥ 0.7 (top 20),
falling back to the top 10 when none qualify. -/
def importantItems (m : ContextManager) (now : ℤ) : List ContextItem :=
  let important := get_context m now none (mkRat 7 10) (some 20)
  if important = [] then get_context m now none 0 (some 10) else important

/-- The `summary_parts` list of `get_context_summary`: one clause per type,
types in first-occurrence order of the selected (sorted) items. -/
def summaryParts (m : ContextManager) (now : ℤ) : List String :=
  let important := importantItems m now
  (firstDedup (important.map (fun item => item.type))).filterMap (renderClause important)

/-- The joined summary text before truncation: `". ".join(summary_parts)`. -/
def joinedSummary (m : ContextManager) (now : ℤ) : String :=
  String.intercalate ". " (summaryParts m now)

/-- `ContextManager.get_context_summary`: sentinel on an empty store,
otherwise the joined clauses, truncated via
`summary[:max_length - 3] + "..."` when longer than `max_length`. -/
def get_context_summary (m : ContextManager) (now : ℤ) (max_length : ℤ) : String :=
  if m.context_items = [] then "No context available."
  else if ((joinedSummary m now).length : ℤ) > max_length then
    pyStrTake (joinedSummary m now) (max_length - 3) ++ "..."
  else joinedSummary m now

/-! ## Generic infrastructure lemmas -/

/-- All ways to insert `a` into a list, in order of insertion position. -/
def insertsOf {α : Type} (a : α) : List α → List (List α)
  | [] => [[a]]
  | b :: l => (a :: b :: l) :: (insertsOf a l).map (b :: ·)

/-- All permutations of a list, by structural recursion (so that the kernel
can evaluate it, unlike `List.permutations`). -/
def permsOf {α : Type} : List α → List (List α)
  | [] => [[]]
  | a :: t => (permsOf t).flatMap (insertsOf a)

theorem mem_insertsOf_split {α : Type} (a : α) :
    ∀ (l₁ l₂ : List α), (l₁ ++ a :: l₂) ∈ insertsOf a (l₁ ++ l₂)
  | [], l₂ => by cases l₂ <;> simp [insertsOf]
  | b :: l₁, l₂ => by
    simp only [List.cons_append, insertsOf, List.mem_cons, List.mem_map]
    exact Or.inr ⟨l₁ ++ a :: l₂, mem_insertsOf_split a l₁ l₂, rfl⟩

/-- `permsOf` enumerates every permutation. -/
theorem permsOf_complete {α : Type} : ∀ {base l : List α}, l.Perm base → l ∈ permsOf base := by
  intro base
  induction base with
  | nil =>
    intro l h
    simp [h.eq_nil, permsOf]
  | cons a t ih =>
    intro l h
    have ha : a ∈ l := h.mem_iff.mpr (List.mem_cons_self a t)
    obtain ⟨l₁, l₂, rfl⟩ := List.append_of_mem ha
    have h2 : (l₁ ++ l₂).Perm t := (List.perm_middle.symm.trans h).cons_inv
    exact List.mem_flatMap.mpr ⟨l₁ ++ l₂, ih h2, mem_insertsOf_split a l₁ l₂⟩

theorem keyLe_total (p q : ℚ × ℤ) : keyLe p q ∨ keyLe q p := by
  rcases lt_trichotomy p.1 q.1 with h | h | h
  · exact Or.inl (Or.inl h)
  · rcases le_total p.2 q.2 with h2 | h2
    · exact Or.inl (Or.inr ⟨h, h2⟩)
    · exact Or.inr (Or.inr ⟨h.symm, h2⟩)
  · exact Or.inr (Or.inl h)

theorem keyLe_trans {p q r : ℚ × ℤ} (h1 : keyLe p q) (h2 : keyLe q r) : keyLe p r := by
  rcases h1 with h1 | ⟨e1, l1⟩
  · rcases h2 with h2 | ⟨e2, l2⟩
    · exact Or.inl (h1.trans h2)
    · left
      rw [← e2]
      exact h1
  · rcases h2 with h2 | ⟨e2, l2⟩
    · left
      rw [e1]
      exact h2
    · exact Or.inr ⟨e1.trans e2, l1.trans l2⟩

instance : IsTotal ContextItem descBefore :=
  ⟨fun a b => keyLe_total (sortKey b) (sortKey a)⟩

instance : IsTrans ContextItem descBefore :=
  ⟨fun _ _ _ h1 h2 => keyLe_trans h2 h1⟩

theorem sortDesc_perm (l : List ContextItem) : (sortDesc l).Perm l :=
  List.perm_insertionSort descBefore l

theorem mem_sortDesc {l : List ContextItem} {x : ContextItem} : x ∈ sortDesc l ↔ x ∈ l :=
  List.mem_insertionSort descBefore

theorem sorted_sortDesc (l : List ContextItem) : List.Sorted descBefore (sortDesc l) :=
  List.sorted_insertionSort descBefore l

theorem pyListTake_subset {α : Type} (l : List α) (k : ℤ) : pyListTake l k ⊆ l := by
  unfold pyListTake
  split
  · exact List.take_subset _ _
  · exact List.take_subset _ _

/-! ## Lemmas about `_cleanup` -/

theorem cleanupItems_length_le (w : ContextWindow) (items : List ContextItem) (now : ℤ) :
    (cleanupItems w items now).length ≤ w.max_items := by
  unfold cleanupItems
  by_cases h : (items.filter (fun item => w.should_retain item now)).length > w.max_items
  · rw [if_pos h]
    simp [List.length_take]
  · rw [if_neg h]
    omega

theorem mem_cleanupItems {w : ContextWindow} {items : List ContextItem} {now : ℤ}
    {x : ContextItem} (hx : x ∈ cleanupItems w items now) :
    x ∈ items ∧ w.should_retain x now = true := by
  unfold cleanupItems at hx
  have hx2 : x ∈ items.filter (fun item => w.should_retain item now) := by
    by_cases h : (items.filter (fun item => w.should_retain item now)).length > w.max_items
    · rw [if_pos h] at hx
      exact mem_sortDesc.mp (List.take_subset _ _ hx)
    · rwa [if_neg h] at hx
  exact ⟨(List.mem_filter.mp hx2).1, (List.mem_filter.mp hx2).2⟩

/-! ## Lemmas about `get_context` -/

theorem getPred_eq_true {now : ℤ} {ct : Option String} {mi : ℚ} {item : ContextItem} :
    getPred now ct mi item = true ↔
      (item.is_expired now = false ∧ typeFilterGet ct item = true ∧ ¬ item.importance < mi) := by
  unfold getPred
  split_ifs with h1 h2 h3 <;> simp_all

theorem get_context_none_eq (m : ContextManager) (now : ℤ) (ct : Option String) (mi : ℚ) :
    get_context m now ct mi none = sortDesc (m.context_items.filter (getPred now ct mi)) := rfl

theorem get_context_subset (m : ContextManager) (now : ℤ) (ct : Option String) (mi : ℚ)
    (lim : Option ℤ) : get_context m now ct mi lim ⊆ m.context_items.filter (getPred now ct mi) := by
  match lim with
  | none => exact (sortDesc_perm _).subset
  | some k =>
    show (if k ≠ 0 then pyListTake (sortDesc (m.context_items.filter (getPred now ct mi))) k
        else sortDesc (m.context_items.filter (getPred now ct mi))) ⊆ _
    by_cases hk : k ≠ 0
    · rw [if_pos hk]
      exact fun x hx => (sortDesc_perm _).subset (pyListTake_subset _ _ hx)
    · rw [if_neg hk]
      exact (sortDesc_perm _).subset

theorem is_expired_true_of_past {i : ContextItem} {now : ℤ}
    (h : ∃ e, i.expires_at = some e ∧ e < now) : i.is_expired now = true := by
  obtain ⟨e, he, hlt⟩ := h
  simp [ContextItem.is_expired, he, hlt]

theorem not_mem_get_context_of_expired {m : ContextManager} {now : ℤ} {ct : Option String}
    {mi : ℚ} {lim : Option ℤ} {i : ContextItem} (h : ∃ e, i.expires_at = some e ∧ e < now) :
    i ∉ get_context m now ct mi lim := by
  intro hmem
  have hp := (List.mem_filter.mp (get_context_subset m now ct mi lim hmem)).2
  rw [getPred_eq_true] at hp
  rw [is_expired_true_of_past h] at hp
  exact Bool.true_eq_false.mp hp.1

theorem not_mem_cleanupItems_of_expired {w : ContextWindow} {items : List ContextItem}
    {now : ℤ} {i : ContextItem} (h : ∃ e, i.expires_at = some e ∧ e < now) :
    i ∉ cleanupItems w items now := by
  intro hmem
  have hr := (mem_cleanupItems hmem).2
  unfold ContextWindow.should_retain at hr
  rw [is_expired_true_of_past h] at hr
  simp at hr

/-! ## Lemmas about `updateFirst` / `removeFirst` -/

theorem updateFirst_eq_none {items : List ContextItem} {iid : String} {v : ℚ} :
    updateFirst items iid v = none ↔ ∀ i ∈ items, i.id ≠ iid := by
  induction items with
  | nil => simp [updateFirst]
  | cons a rest ih =>
    unfold updateFirst
    by_cases ha : a.id = iid
    · simp [ha]
    · simp [ha, Option.map_eq_none', ih]

theorem removeFirst_eq_none {items : List ContextItem} {iid : String} :
    removeFirst items iid = none ↔ ∀ i ∈ items, i.id ≠ iid := by
  induction items with
  | nil => simp [removeFirst]
  | cons a rest ih =>
    unfold removeFirst
    by_cases ha : a.id = iid
    · simp [ha]
    · simp [ha, Option.map_eq_none', ih]

theorem updateFirst_some {items : List ContextItem} {iid : String} {v : ℚ}
    {l : List ContextItem} (h : updateFirst items iid v = some l) :
    ∃ i ∈ l, i.id = iid ∧ i.importance = v := by
  induction items generalizing l with
  | nil => simp [updateFirst] at h
  | cons a rest ih =>
    unfold updateFirst at h
    by_cases ha : a.id = iid
    · rw [if_pos ha] at h
      obtain rfl := Option.some.inj h
      exact ⟨{ a with importance := v }, List.mem_cons_self _ _, ha, rfl⟩
    · rw [if_neg ha] at h
      cases hr : updateFirst rest iid v with
      | none => rw [hr] at h; simp at h
      | some l2 =>
        rw [hr] at h
        obtain rfl := Option.some.inj h
        obtain ⟨i, hi, hid, himp⟩ := ih hr
        exact ⟨i, List.mem_cons_of_mem _ hi, hid, himp⟩

/-! ## Concrete fixtures -/

/-- Scenario A policy: `max_items=3`, effectively unbounded age, importance
floor 0. -/
def scenarioWindow : ContextWindow :=
  { max_items := 3, max_age_hours := 1000000, importance_threshold := 0 }

/-- A plain item with a distinct id and timestamp per index, no expiry. -/
def scenarioItem (n : ℕ) (q : ℚ) : ContextItem :=
  { id := toString n, type := "note", content := "", timestamp := (n : ℤ), importance := q }

/-- The five Scenario A items, importances [0.9, 0.1, 0.5, 0.8, 0.3]. -/
def scenarioItems : List ContextItem :=
  [scenarioItem 1 (mkRat 9 10), scenarioItem 2 (mkRat 1 10), scenarioItem 3 (mkRat 1 2),
   scenarioItem 4 (mkRat 4 5), scenarioItem 5 (mkRat 3 10)]

/-- A manager holding the given items under the Scenario A policy. -/
def scenarioManager (l : List ContextItem) : ContextManager :=
  { session_id := "s", context_window := scenarioWindow, context_items := l }

/-- A single fresh unexpired item and a manager (default policy) holding it. -/
def soloItem : ContextItem :=
  { id := "a", type := "note", content := "", timestamp := 0, importance := mkRat 1 2 }

/-- Manager with the default window holding exactly `soloItem`. -/
def soloManager : ContextManager :=
  { session_id := "s", context_items := [soloItem] }

/-- A manager with no items at all. -/
def emptyManager : ContextManager :=
  { session_id := "s" }

/-- An item whose `expires_at` is already in the past at time 0. -/
def expiredItem : ContextItem :=
  { id := "e", type := "note", content := "", timestamp := 0, importance := 1,
    expires_at := some (-1) }

/-- Manager with the default window holding exactly `expiredItem`. -/
def expiredManager : ContextManager :=
  { session_id := "s", context_items := [expiredItem] }

/-- A single high-importance item of an uncommon kind, for summary tests. -/
def patternItem : ContextItem :=
  { id := "p", type := "pattern", content := "", timestamp := 0 }

/-- Manager with the default window holding exactly `patternItem`; its joined
summary text is `"Pattern: 1 items"` (16 characters). -/
def patternManager : ContextManager :=
  { session_id := "s", context_items := [patternItem] }

/-- A snapshot with `last_cleanup = 0`, used to probe `import_context`. -/
def staleSnapshot : ContextSnapshot :=
  { session_id := "s", context_window := {}, context_items := [], summary := none,
    last_cleanup := 0 }

/-! ## Claim theorems -/

/-- C1: for every manager state and every time `now`, after `_cleanup` the
item collection has at most `context_window.max_items` elements, and every
item still present satisfies `should_retain` at cleanup time. -/
theorem cleanup_bounded_and_retained (m : ContextManager) (now : ℤ) :
    (cleanup m now).context_items.length ≤ m.context_window.max_items ∧
    ∀ i ∈ (cleanup m now).context_items, m.context_window.should_retain i now = true := by
  refine ⟨cleanupItems_length_le _ _ _, ?_⟩
  intro i hi
  exact (mem_cleanupItems hi).2

/-- Witness for `cleanup_bounded_and_retained` at a concrete manager, item
and time. -/
theorem cleanup_bounded_and_retained_witness :
    (cleanup (scenarioManager scenarioItems) 10).context_items.length ≤
      (scenarioManager scenarioItems).context_window.max_items ∧
    (scenarioManager scenarioItems).context_window.should_retain
      (scenarioItem 1 (mkRat 9 10)) 10 = true :=
  ⟨(cleanup_bounded_and_retained (scenarioManager scenarioItems) 10).1,
   (cleanup_bounded_and_retained (scenarioManager scenarioItems) 10).2
     (scenarioItem 1 (mkRat 9 10)) (by decide)⟩

set_option maxRecDepth 8000 in
/-- C2: when cleanup must drop items because more than `max_items` survive
the retention filter, the kept items are the first `max_items` of a
descending (importance, timestamp)-sorted permutation of the retained items,
and every survivor dominates every evicted item in that order; in Scenario A
(`max_items=3`, floor 0, no expiry, importances [0.9,0.1,0.5,0.8,0.3]) the
survivors after cleanup have importances [0.9, 0.8, 0.5] regardless of
insertion order. -/
theorem cleanup_eviction_order :
    (∀ (m : ContextManager) (now : ℤ),
      m.context_window.max_items <
        (m.context_items.filter (fun item => m.context_window.should_retain item now)).length →
      ∃ p : List ContextItem,
        (m.context_items.filter
          (fun item => m.context_window.should_retain item now)).Perm p ∧
        List.Sorted descBefore p ∧
        (cleanup m now).context_items = p.take m.context_window.max_items ∧
        ∀ a ∈ p.take m.context_window.max_items,
          ∀ b ∈ p.drop m.context_window.max_items, descBefore a b) ∧
    (∀ l, l.Perm scenarioItems →
      (cleanup (scenarioManager l) 10).context_items.map ContextItem.importance =
        [mkRat 9 10, mkRat 4 5, mkRat 1 2]) := by
  constructor
  · intro m now h
    set retained :=
      m.context_items.filter (fun item => m.context_window.should_retain item now) with hret
    refine ⟨sortDesc retained, (sortDesc_perm retained).symm, sorted_sortDesc retained, ?_, ?_⟩
    · show cleanupItems m.context_window m.context_items now = _
      unfold cleanupItems
      rw [← hret, if_pos h]
    · have hs : List.Pairwise descBefore
          ((sortDesc retained).take m.context_window.max_items ++
            (sortDesc retained).drop m.context_window.max_items) := by
        rw [List.take_append_drop]
        exact sorted_sortDesc retained
      exact (List.pairwise_append.mp hs).2.2
  · intro l hl
    exact (by decide : ∀ l2 ∈ permsOf scenarioItems,
      (cleanup (scenarioManager l2) 10).context_items.map ContextItem.importance =
        [mkRat 9 10, mkRat 4 5, mkRat 1 2]) l (permsOf_complete hl)

/-- Witness for `cleanup_eviction_order`: the Scenario A manager exceeds its
cap, and the insertion order of the spec's Scenario A is itself a
permutation. -/
theorem cleanup_eviction_order_witness :
    (∃ p : List ContextItem,
      ((scenarioManager scenarioItems).context_items.filter
        (fun item =>
          (scenarioManager scenarioItems).context_window.should_retain item 10)).Perm p ∧
      List.Sorted descBefore p ∧
      (cleanup (scenarioManager scenarioItems) 10).context_items =
        p.take (scenarioManager scenarioItems).context_window.max_items ∧
      ∀ a ∈ p.take (scenarioManager scenarioItems).context_window.max_items,
        ∀ b ∈ p.drop (scenarioManager scenarioItems).context_window.max_items,
          descBefore a b) ∧
    (cleanup (scenarioManager scenarioItems) 10).context_items.map ContextItem.importance =
      [mkRat 9 10, mkRat 4 5, mkRat 1 2] :=
  ⟨cleanup_eviction_order.1 (scenarioManager scenarioItems) 10 (by decide),
   cleanup_eviction_order.2 scenarioItems (List.Perm.refl _)⟩

/-- C3 counterexample: the claim says `limit` truncation keeps the first
`limit` elements of the sorted list, so with `limit = 0` the result would be
empty; but `get_context` guards the slice with Python truthiness
(`if limit:`), so `limit = 0` performs no truncation and the single stored
item is returned. -/
theorem get_context_limit_zero_counterexample :
    get_context soloManager 0 none 0 (some 0) = [soloItem] ∧
    get_context soloManager 0 none 0 (some 0) ≠
      (get_context soloManager 0 none 0 none).take (Int.toNat 0) := by
  constructor
  · decide
  · decide

/-- C3 amended: `get_context` returns exactly the stored items that are not
expired and pass the kind and importance filters, sorted descending by
(importance, timestamp) with ties on importance broken toward the more
recent timestamp, and a *positive* `limit` truncates after the sort by
keeping the first `limit` elements (a `limit` of `None` or `0` is falsy in
Python and performs no truncation). -/
theorem get_context_filter_sort_limit :
    (∀ (m : ContextManager) (now : ℤ) (ct : Option String) (mi : ℚ) (i : ContextItem),
      i ∈ get_context m now ct mi none ↔
        i ∈ m.context_items ∧ i.is_expired now = false ∧
          typeFilterGet ct i = true ∧ ¬ i.importance < mi) ∧
    (∀ (m : ContextManager) (now : ℤ) (ct : Option String) (mi : ℚ),
      List.Sorted descBefore (get_context m now ct mi none)) ∧
    (∀ (m : ContextManager) (now : ℤ) (ct : Option String) (mi : ℚ) (k : ℤ), 0 < k →
      get_context m now ct mi (some k) = (get_context m now ct mi none).take k.toNat) := by
  refine ⟨?_, ?_, ?_⟩
  · intro m now ct mi i
    rw [get_context_none_eq, mem_sortDesc, List.mem_filter, getPred_eq_true]
  · intro m now ct mi
    rw [get_context_none_eq]
    exact sorted_sortDesc _
  · intro m now ct mi k hk
    show (if k ≠ 0 then pyListTake (sortDesc (m.context_items.filter (getPred now ct mi))) k
        else sortDesc (m.context_items.filter (getPred now ct mi))) = _
    rw [if_pos (by omega : k ≠ 0), get_context_none_eq]
    unfold pyListTake
    rw [if_neg (by omega : ¬ k < 0)]

/-- Witness for `get_context_filter_sort_limit` at concrete inputs. -/
theorem get_context_filter_sort_limit_witness :
    (soloItem ∈ get_context soloManager 0 none 0 none ↔
      soloItem ∈ soloManager.context_items ∧ soloItem.is_expired 0 = false ∧
        typeFilterGet none soloItem = true ∧ ¬ soloItem.importance < 0) ∧
    get_context soloManager 0 none 0 (some 1) =
      (get_context soloManager 0 none 0 none).take (Int.toNat 1) :=
  ⟨get_context_filter_sort_limit.1 soloManager 0 none 0 soloItem,
   get_context_filter_sort_limit.2.2 soloManager 0 none 0 1 (by decide)⟩

/-- C4: importing the snapshot produced by `export_context` into any fresh
manager yields exactly the item list of a direct cleanup pass on the
original manager at the same time, and `export_context` itself performs no
cleanup: it dumps the stored items verbatim, including already-expired ones
that have not been swept yet. -/
theorem export_import_round_trip (m fresh : ContextManager) (now : ℤ) :
    (import_context fresh (export_context m) now).context_items =
      (cleanup m now).context_items ∧
    (export_context m).context_items = m.context_items :=
  ⟨rfl, rfl⟩

/-- C5 counterexample: `update_context_importance` stores the value `2`
verbatim (the claim says it would store the clamped value, which for `2`
is `1` — and that stored importances always lie in `[0,1]`). -/
theorem importance_not_clamped_counterexample :
    (update_context_importance soloManager "a" 2).1.context_items.map
      ContextItem.importance = [2] ∧
    ¬ (2 : ℚ) ≤ 1 := by
  constructor
  · decide
  · decide

/-- C5 amended: no clamping happens anywhere: `add_context` constructs its
item with the importance argument unchanged, and a successful
`update_context_importance` stores the given value unchanged (so values
outside `[0,1]` are stored as passed). -/
theorem importance_stored_unclamped :
    (∀ (now : ℤ) (iid c ty : String) (v : ℚ) (eh : Option ℤ)
        (md : Option (List (String × String))),
      (mkAddItem now iid c ty v eh md).importance = v) ∧
    (∀ (m : ContextManager) (iid : String) (v : ℚ),
      (update_context_importance m iid v).2 = true →
      ∃ i ∈ (update_context_importance m iid v).1.context_items,
        i.id = iid ∧ i.importance = v) := by
  constructor
  · intro now iid c ty v eh md
    rfl
  · intro m iid v h
    unfold update_context_importance at h ⊢
    cases hu : updateFirst m.context_items iid v with
    | none => simp [hu] at h
    | some l => simpa using updateFirst_some hu

/-- Witness for `importance_stored_unclamped` at concrete inputs. -/
theorem importance_stored_unclamped_witness :
    (mkAddItem 0 "x" "c" "note" 2 none none).importance = 2 ∧
    ∃ i ∈ (update_context_importance soloManager "a" 2).1.context_items,
      i.id = "a" ∧ i.importance = 2 :=
  ⟨importance_stored_unclamped.1 0 "x" "c" "note" 2 none none,
   importance_stored_unclamped.2 soloManager "a" 2 (by decide)⟩

/-- C6: an item whose `expires_at` is in the past is excluded from every
`get_context` read (reads are pure in this embedding — `get_context` only
inspects `_context_items`, so the stored collection is untouched by a read),
and a cleanup pass removes it from storage. -/
theorem expired_lazy_two_speed :
    ∀ (m : ContextManager) (now : ℤ) (i : ContextItem) (ct : Option String) (mi : ℚ)
      (lim : Option ℤ),
      (∃ e, i.expires_at = some e ∧ e < now) →
      i ∉ get_context m now ct mi lim ∧ i ∉ (cleanup m now).context_items := by
  intro m now i ct mi lim h
  exact ⟨not_mem_get_context_of_expired h, not_mem_cleanupItems_of_expired h⟩

/-- Witness for `expired_lazy_two_speed`: a concrete expired item is invisible
to `get_context` and swept by `cleanup`, while still stored beforehand. -/
theorem expired_lazy_two_speed_witness :
    expiredItem ∈ expiredManager.context_items ∧
    expiredItem ∉ get_context expiredManager 0 none 0 none ∧
    expiredItem ∉ (cleanup expiredManager 0).context_items :=
  ⟨by decide,
   (expired_lazy_two_speed expiredManager 0 expiredItem none 0 none ⟨-1, rfl, by decide⟩).1,
   (expired_lazy_two_speed expiredManager 0 expiredItem none 0 none ⟨-1, rfl, by decide⟩).2⟩

/-- C7 counterexample: the claim says a truncated summary never exceeds
`max_length`; but `get_context_summary` computes `summary[:max_length - 3] +
"..."`, and for `max_length = 1` the Python slice bound `-2` keeps all but
the last two characters, so a 16-character summary yields a 17-character
result, exceeding `max_length = 1`. -/
theorem summary_truncation_counterexample :
    get_context_summary patternManager 0 1 = "Pattern: 1 ite..." ∧
    ¬ ((get_context_summary patternManager 0 1).length ≤ 1) := by
  constructor
  · decide
  · decide

/-- C7 amended: on an empty manager `get_context_summary` returns the fixed
sentinel `"No context available."`; otherwise it renders the selected items
(importance ≥ 0.7 capped at 20, else the top 10) grouped by kind, joins the
clauses with `". "`, and when the joined text exceeds `max_length` it
replaces it by its first `max_length - 3` characters followed by `"..."` —
which stays within `max_length` whenever `max_length ≥ 3` (for smaller
`max_length` the Python negative-slice fallback can exceed it). -/
theorem summary_sentinel_and_truncation :
    (∀ (m : ContextManager) (now maxLen : ℤ), m.context_items = [] →
      get_context_summary m now maxLen = "No context available.") ∧
    (∀ (m : ContextManager) (now maxLen : ℤ), m.context_items ≠ [] → 3 ≤ maxLen →
      ((get_context_summary m now maxLen).length : ℤ) ≤ maxLen) ∧
    (∀ (m : ContextManager) (now maxLen : ℤ), m.context_items ≠ [] →
      maxLen < ((joinedSummary m now).length : ℤ) →
      get_context_summary m now maxLen =
        pyStrTake (joinedSummary m now) (maxLen - 3) ++ "...") := by
  refine ⟨?_, ?_, ?_⟩
  · intro m now maxLen he
    unfold get_context_summary
    rw [if_pos he]
  · intro m now maxLen hne h3
    by_cases hl : ((joinedSummary m now).length : ℤ) > maxLen
    · unfold get_context_summary
      rw [if_neg hne, if_pos hl, String.length_append]
      have htake : (pyStrTake (joinedSummary m now) (maxLen - 3)).length =
          min (maxLen - 3).toNat (joinedSummary m now).length := by
        unfold pyStrTake pyListTake
        rw [if_neg (by omega : ¬ (maxLen - 3) < 0)]
        show ((joinedSummary m now).data.take (maxLen - 3).toNat).length = _
        rw [List.length_take]
        rfl
      rw [htake]
      have h3len : ("..." : String).length = 3 := rfl
      rw [h3len]
      omega
    · unfold get_context_summary
      rw [if_neg hne, if_neg hl]
      omega
  · intro m now maxLen hne hl
    unfold get_context_summary
    rw [if_neg hne, if_pos hl]

/-- Witness for `summary_sentinel_and_truncation` at concrete managers and
lengths. -/
theorem summary_sentinel_and_truncation_witness :
    get_context_summary emptyManager 0 5 = "No context available." ∧
    ((get_context_summary patternManager 0 20).length : ℤ) ≤ 20 ∧
    get_context_summary patternManager 0 5 =
      pyStrTake (joinedSummary patternManager 0) (5 - 3) ++ "..." :=
  ⟨summary_sentinel_and_truncation.1 emptyManager 0 5 rfl,
   summary_sentinel_and_truncation.2.1 patternManager 0 20 (by decide) (by decide),
   summary_sentinel_and_truncation.2.2 patternManager 0 5 (by decide) (by decide)⟩

/-- C8 counterexample: importing a snapshot whose stored `last_cleanup` is 0
at time 1000 leaves `last_cleanup = 0`, not the import time — the cleanup
pass run by `import_context` is `_cleanup`, which never touches
`_last_cleanup`, and `import_context` restores the snapshot value. -/
theorem import_last_cleanup_counterexample :
    (import_context emptyManager staleSnapshot 1000).last_cleanup = 0 ∧
    (0 : ℤ) ≠ 1000 :=
  ⟨rfl, by decide⟩

/-- C8 amended: only `_maybe_cleanup` updates `last_cleanup` (to `now`, when
the 10-minute interval has elapsed); `_cleanup` itself leaves it unchanged,
and `import_context` sets it to the snapshot's stored value, so after an
importing step `last_cleanup` equals the snapshot value rather than the
time of the import. -/
theorem last_cleanup_update_behavior :
    (∀ (fresh : ContextManager) (snap : ContextSnapshot) (now : ℤ),
      (import_context fresh snap now).last_cleanup = snap.last_cleanup) ∧
    (∀ (m : ContextManager) (now : ℤ), (cleanup m now).last_cleanup = m.last_cleanup) ∧
    (∀ (m : ContextManager) (now : ℤ), ¬ now - m.last_cleanup < 600 →
      (maybe_cleanup m now).last_cleanup = now) := by
  refine ⟨fun fresh snap now => rfl, fun m now => rfl, fun m now h => ?_⟩
  unfold maybe_cleanup
  rw [if_neg h]

/-- Witness for `last_cleanup_update_behavior` at a concrete manager and
time past the cleanup interval. -/
theorem last_cleanup_update_behavior_witness :
    (maybe_cleanup emptyManager 600).last_cleanup = 600 :=
  last_cleanup_update_behavior.2.2 emptyManager 600 (by decide)

/-- C9: for an id matching no stored item, `update_context_importance` and
`remove_context` return `False` and leave the manager completely unchanged;
for an id matching a stored item they return `True`. -/
theorem notfound_boolean_unchanged :
    ∀ (m : ContextManager) (iid : String) (v : ℚ),
      ((∀ i ∈ m.context_items, i.id ≠ iid) →
        update_context_importance m iid v = (m, false) ∧
        remove_context m iid = (m, false)) ∧
      ((∃ i ∈ m.context_items, i.id = iid) →
        (update_context_importance m iid v).2 = true ∧
        (remove_context m iid).2 = true) := by
  intro m iid v
  constructor
  · intro h
    constructor
    · unfold update_context_importance
      rw [updateFirst_eq_none.mpr h]
    · unfold remove_context
      rw [removeFirst_eq_none.mpr h]
  · intro h
    have hu : updateFirst m.context_items iid v ≠ none := by
      rw [Ne, updateFirst_eq_none]
      push_neg
      obtain ⟨i, hi, hid⟩ := h
      exact ⟨i, hi, hid⟩
    have hr : removeFirst m.context_items iid ≠ none := by
      rw [Ne, removeFirst_eq_none]
      push_neg
      obtain ⟨i, hi, hid⟩ := h
      exact ⟨i, hi, hid⟩
    constructor
    · unfold update_context_importance
      cases hu2 : updateFirst m.context_items iid v with
      | none => exact absurd hu2 hu
      | some l => rfl
    · unfold remove_context
      cases hr2 : removeFirst m.context_items iid with
      | none => exact absurd hr2 hr
      | some l => rfl

/-- Witness for `notfound_boolean_unchanged`: a miss ("z") changes nothing
and returns `False`; a hit ("a") returns `True`. -/
theorem notfound_boolean_unchanged_witness :
    (update_context_importance soloManager "z" 2 = (soloManager, false) ∧
      remove_context soloManager "z" = (soloManager, false)) ∧
    ((update_context_importance soloManager "a" 2).2 = true ∧
      (remove_context soloManager "a").2 = true) :=
  ⟨(notfound_boolean_unchanged soloManager "z" 2).1 (by decide),
   (notfound_boolean_unchanged soloManager "a" 2).2 ⟨soloItem, by decide, rfl⟩⟩

/-- C10: `get_recent_context` applies no expiry filter: every stored item
whose timestamp is within the look-back window and whose kind matches
appears in the result even when `expires_at` is in the past — unlike
`get_context`, which always excludes expired items. -/
theorem get_recent_includes_expired :
    ∀ (m : ContextManager) (now hours : ℤ) (ct : Option String) (i : ContextItem),
      i ∈ m.context_items →
      now - 3600 * hours ≤ i.timestamp →
      (ct = none ∨ ct = some i.type) →
      i ∈ get_recent_context m now hours ct ∧
      ((∃ e, i.expires_at = some e ∧ e < now) →
        ∀ (mi : ℚ) (lim : Option ℤ), i ∉ get_context m now ct mi lim) := by
  intro m now hours ct i hi hts hct
  constructor
  · unfold get_recent_context
    rw [List.mem_insertionSort, List.mem_filter]
    refine ⟨hi, ?_⟩
    rw [Bool.and_eq_true]
    refine ⟨decide_eq_true hts, ?_⟩
    rcases hct with h | h
    · rw [h]
    · rw [h]
      simp
  · intro he mi lim
    exact not_mem_get_context_of_expired he

/-- Witness for `get_recent_includes_expired`: the concrete expired item is
returned by `get_recent_context` but not by `get_context`. -/
theorem get_recent_includes_expired_witness :
    expiredItem ∈ get_recent_context expiredManager 0 1 none ∧
    expiredItem ∉ get_context expiredManager 0 none 0 none := by
  have h := get_recent_includes_expired expiredManager 0 1 none expiredItem
    (by decide) (by decide) (Or.inl rfl)
  exact ⟨h.1, h.2 ⟨-1, rfl, by decide⟩ 0 none⟩
